import Mathlib

/-!
Verification of the SNARKtor proof-verification client library
(src/SnarktorVerificationClient.js) against its natural-language
specification.

The Merkle-tree engine is embedded parametrically in the pair-combination
function `H : α → α → α`, which models
`ethers.utils.solidityKeccak256(['bytes32','bytes32'], [x, y])`: the library
never inspects hash values, it only combines and compares them, so every
theorem proved for all `H` holds in particular for keccak256.  Counterexamples
instantiate `H` with a concrete injective combiner on `Nat`.
-/

set_option maxRecDepth 8000

namespace Snarktor

/-- Error kinds raised by the client (spec §7).  The JS code throws `Error`
with messages "Empty proofs array", "Leaf index out of bounds" and
"Unsupported proof data format" respectively. -/
inductive ClientError
  | EmptyLeafSet
  | IndexOutOfRange
  | UnsupportedPayloadFormat
  deriving DecidableEq, Repr

/-- The object returned by `generateMerkleProof` (lines 243-247):
`{ path, index, leaf }`. -/
structure MerkleProof (α : Type) where
  path : List α
  index : Nat
  leaf : α
  deriving DecidableEq, Repr

/-- One pass of the `for (let i = 0; i < currentLevel.length; i += 2)` loop of
`buildMerkleTree` (lines 180-191): consecutive pairs are combined with `H`
in left-then-right order, and an unpaired last element is promoted
unchanged to the next level. -/
def combineLevel {α : Type} (H : α → α → α) : List α → List α
  | a :: b :: rest => H a b :: combineLevel H rest
  | [a] => [a]
  | [] => []

theorem combineLevel_length {α : Type} (H : α → α → α) :
    ∀ l : List α, (combineLevel H l).length = (l.length + 1) / 2
  | [] => by simp [combineLevel]
  | [_] => by simp [combineLevel]
  | a :: b :: rest => by
    simp only [combineLevel, List.length_cons]
    rw [combineLevel_length H rest]
    omega

/-- The `while (currentLevel.length > 1)` loop of `buildMerkleTree`
(lines 177-194), returning the final value of `currentLevel`. -/
def mfold {α : Type} (H : α → α → α) (l : List α) : List α :=
  if h : 1 < l.length then mfold H (combineLevel H l) else l
termination_by l.length
decreasing_by
  rw [combineLevel_length]
  omega

theorem mfold_ne_nil {α : Type} (H : α → α → α) :
    ∀ (n : Nat) (l : List α), l.length = n → l ≠ [] → mfold H l ≠ [] := by
  intro n
  induction n using Nat.strong_induction_on with
  | _ n ih =>
    intro l hlen hne
    rw [mfold]
    split
    · next h1 =>
      refine ih (combineLevel H l).length ?_ _ rfl ?_
      · rw [combineLevel_length]; omega
      · have : 0 < (combineLevel H l).length := by rw [combineLevel_length]; omega
        exact List.length_pos.mp this
    · exact hne

theorem mfold_ne_nil' {α : Type} (H : α → α → α) (l : List α) (h : l ≠ []) :
    mfold H l ≠ [] :=
  mfold_ne_nil H l.length l rfl h

/-- `buildMerkleTree` (lines 166-197).  An empty array throws
"Empty proofs array" (`EmptyLeafSet`); a singleton returns its only element
(which is also what the loop on a singleton level yields, so the JS early
return at lines 171-173 coincides with the loop); otherwise the final
one-element level's head (`currentLevel[0]`, line 196) is returned.  The
head is well defined because `mfold` preserves nonemptiness. -/
def buildMerkleTree {α : Type} (H : α → α → α) : List α → Except ClientError α
  | [] => .error .EmptyLeafSet
  | a :: rest => .ok ((mfold H (a :: rest)).head (mfold_ne_nil' H _ (by simp)))

/-- The path-collection loop of `generateMerkleProof` (lines 213-241).  At
each level with more than one node: an even index records the node at
`index + 1` when it exists (the unpaired last element of an odd level records
nothing, since it is promoted rather than paired); an odd index records the
node at `index - 1`, which the JS reads unconditionally and which is always
in range when `index < l.length` (the invariant maintained by the loop for an
in-range starting index — `Option.toList` makes the in-range read exact and
the out-of-range read empty).  The level is then combined and the index
halved. -/
def proofLoop {α : Type} (H : α → α → α) (l : List α) (index : Nat) : List α :=
  if h : 1 < l.length then
    (if index % 2 = 0 then (l[index + 1]?).toList else (l[index - 1]?).toList)
      ++ proofLoop H (combineLevel H l) (index / 2)
  else []
termination_by l.length
decreasing_by
  rw [combineLevel_length]
  omega

/-- `generateMerkleProof` (lines 204-248): rejects `leafIndex ≥ length` with
"Leaf index out of bounds" (`IndexOutOfRange`), otherwise returns the sibling
path together with the original `leafIndex` and `proofHashes[leafIndex]`. -/
def generateMerkleProof {α : Type} (H : α → α → α) (l : List α) (leafIndex : Nat) :
    Except ClientError (MerkleProof α) :=
  if h : leafIndex < l.length then
    .ok { path := proofLoop H l leafIndex, index := leafIndex, leaf := l.get ⟨leafIndex, h⟩ }
  else .error .IndexOutOfRange

/-- The `for` loop of `verifyMerkleProof` (lines 260-276): the accumulator
`computedHash` starts at the leaf; an even running index combines
`H computedHash proofElement`, an odd one combines
`H proofElement computedHash`; the index is halved after every path
element. -/
def foldPath {α : Type} (H : α → α → α) : List α → Nat → α → α
  | [], _, computedHash => computedHash
  | proofElement :: rest, index, computedHash =>
    foldPath H rest (index / 2)
      (if index % 2 = 0 then H computedHash proofElement else H proofElement computedHash)

/-- `verifyMerkleProof` (lines 257-279): a total boolean predicate, true
exactly when the folded hash equals the root. -/
def verifyMerkleProof {α : Type} [DecidableEq α] (H : α → α → α)
    (path : List α) (index : Nat) (leaf root : α) : Bool :=
  decide (foldPath H path index leaf = root)

/-- Modelled from the spec: §4.2 `verifyInclusionPath(path, root)` in the
spec's own words — "starting from path.leaf as computedHash and path.index as
the running index, for each sibling in path order: if index is even,
computedHash = hash(computedHash ++ sibling); if index is odd, computedHash =
hash(sibling ++ computedHash); then index = floor(index/2).  Final
computedHash must equal root exactly". -/
def specWalk {α : Type} (H : α → α → α) : List α → Nat → α → α
  | [], _, computed => computed
  | s :: rest, index, computed =>
    specWalk H rest (index / 2) (if index % 2 = 0 then H computed s else H s computed)

/-- Modelled from the spec: the boolean verdict of §4.2
`verifyInclusionPath`. -/
def verifyInclusionPathSpec {α : Type} [DecidableEq α] (H : α → α → α)
    (p : MerkleProof α) (root : α) : Bool :=
  decide (specWalk H p.path p.index p.leaf = root)

/-- A concrete injective pair combiner on `Nat`, standing in for keccak256 in
counterexamples: `pairHash x y = 2 ^ x * 3 ^ y`, so `pairHash x y = pairHash y x`
only when `x = y`. -/
def pairHash (x y : Nat) : Nat := 2 ^ x * 3 ^ y

/-- `buildMerkleTree`'s loop with the caller's array made explicit, to state
its frame property.  Line 175 copies `proofHashes` into `currentLevel`
(`[...proofHashes]`); every iteration writes only the fresh `nextLevel` and
the local `currentLevel` binding, so the caller's array is threaded through
unmodified.  Returns (caller's array, final `currentLevel`). -/
def buildLoopArr {α : Type} (H : α → α → α) (proofHashes currentLevel : List α) :
    List α × List α :=
  if h : 1 < currentLevel.length then
    buildLoopArr H proofHashes (combineLevel H currentLevel)
  else (proofHashes, currentLevel)
termination_by currentLevel.length
decreasing_by
  rw [combineLevel_length]
  omega

/-- The value of the caller's `proofHashes` array once `buildMerkleTree`
returns: the early exits for length 0/1 never touch it, otherwise it is
whatever the loop leaves in place. -/
def buildMerkleTreeArr {α : Type} (H : α → α → α) (proofHashes : List α) : List α :=
  if proofHashes.length ≤ 1 then proofHashes
  else (buildLoopArr H proofHashes proofHashes).1

/-- `generateMerkleProof`'s loop with the caller's array made explicit
(line 210 copies `proofHashes` into `currentLevel`).  Returns
(caller's array, accumulated `path`). -/
def genLoopArr {α : Type} (H : α → α → α) (proofHashes currentLevel : List α)
    (index : Nat) (path : List α) : List α × List α :=
  if h : 1 < currentLevel.length then
    genLoopArr H proofHashes (combineLevel H currentLevel) (index / 2)
      (path ++ (if index % 2 = 0 then (currentLevel[index + 1]?).toList
                else (currentLevel[index - 1]?).toList))
  else (proofHashes, path)
termination_by currentLevel.length
decreasing_by
  rw [combineLevel_length]
  omega

/-- The value of the caller's `proofHashes` array once `generateMerkleProof`
returns (first component); the final `leaf: proofHashes[leafIndex]` at
line 246 reads this array after the loop. -/
def generateMerkleProofArr {α : Type} (H : α → α → α) (proofHashes : List α)
    (leafIndex : Nat) : List α × List α :=
  if leafIndex < proofHashes.length then genLoopArr H proofHashes proofHashes leafIndex []
  else (proofHashes, [])

/-- JSON-style JavaScript values, as far as the normalizer inspects them. -/
inductive JsVal : Type
  | jsNull
  | jsBool (b : Bool)
  | jsNum (n : Int)
  | jsStr (s : String)
  | jsArr (elems : List JsVal)
  | jsObj (fields : List (String × JsVal))

/-- JavaScript truthiness of the modelled values: `null`, `false`, `0` and
the empty string are falsy, every array and object is truthy. -/
def JsVal.truthy : JsVal → Bool
  | .jsNull => false
  | .jsBool b => b
  | .jsNum n => n != 0
  | .jsStr s => s != ""
  | .jsArr _ => true
  | .jsObj _ => true

mutual

/-- `JSON.stringify` on the modelled values.  String escaping beyond the
surrounding quotes is not modelled; no claim depends on it. -/
def stringify : JsVal → String
  | .jsNull => "null"
  | .jsBool true => "true"
  | .jsBool false => "false"
  | .jsNum n => toString n
  | .jsStr s => "\"" ++ s ++ "\""
  | .jsArr xs => "[" ++ stringifySeq xs ++ "]"
  | .jsObj fs => "\x7b" ++ stringifyFields fs ++ "\x7d"

def stringifySeq : List JsVal → String
  | [] => ""
  | [x] => stringify x
  | x :: y :: rest => stringify x ++ "," ++ stringifySeq (y :: rest)

def stringifyFields : List (String × JsVal) → String
  | [] => ""
  | [kv] => "\"" ++ kv.1 ++ "\":" ++ stringify kv.2
  | kv :: kw :: rest =>
    "\"" ++ kv.1 ++ "\":" ++ stringify kv.2 ++ "," ++ stringifyFields (kw :: rest)

end

mutual

/-- The implicit string coercion `Array.prototype.join` applies to the raw
`proofData.proof` component (line 116 pushes the value itself, line 125 joins):
strings stay themselves, arrays flatten with commas, plain objects coerce to
"[object Object]".  (Inside a join JS renders null as the empty string; that
corner is approximated as "null" and no claim depends on it.) -/
def jsToString : JsVal → String
  | .jsNull => "null"
  | .jsBool true => "true"
  | .jsBool false => "false"
  | .jsNum n => toString n
  | .jsStr s => s
  | .jsArr xs => jsToStringSeq xs
  | .jsObj _ => "[object Object]"

def jsToStringSeq : List JsVal → String
  | [] => ""
  | [x] => jsToString x
  | x :: y :: rest => jsToString x ++ "," ++ jsToStringSeq (y :: rest)

end

/-- First-match association-list lookup, modelling JS property access on the
modelled plain objects. -/
def lookupField : List (String × JsVal) → String → Option JsVal
  | [], _ => none
  | (k, v) :: rest, key => if k = key then some v else lookupField rest key

def hexDigit (n : Nat) : Char :=
  if n < 10 then Char.ofNat (48 + n) else Char.ofNat (87 + n)

def toHexByte (b : Nat) : String :=
  String.mk [hexDigit (b / 16 % 16), hexDigit (b % 16)]

/-- `ethers.utils.hexlify` on a byte buffer: "0x" followed by two lowercase
hex digits per byte. -/
def hexlify (bytes : List Nat) : String :=
  "0x" ++ String.join (bytes.map toHexByte)

/-- JavaScript values a caller can pass as `proofData`, following the
`typeof` dispatch of `parseGenericProof` (lines 97-134): hex string, Buffer,
non-null object, plus the unsupported cases null, number, boolean, function
and undefined. -/
inductive ProofData : Type
  | str (s : String)
  | buf (bytes : List Nat)
  | obj (fields : List (String × JsVal))
  | jsNull
  | num (n : Int)
  | bool (b : Bool)
  | func
  | undef

/-- Spec-side classifier for C9: the payload shapes `parseGenericProof`
declares supported (bytes, hex string, structured object). -/
def ProofData.supported : ProofData → Bool
  | .str _ => true
  | .buf _ => true
  | .obj _ => true
  | _ => false

/-- The object returned by `parseGenericProof`: `structured` is present only
for the object branch (line 129). -/
structure ParsedProof (α : Type) where
  proofHash : α
  rawData : String
  structured : Option (List (String × JsVal))

/-- `parseGenericProof` (lines 97-134), parametric in the three hashing
call shapes the JS uses: `kraw` models `keccak256(hexString)`, `kbuf` models
`keccak256(buffer)`, `kutf8` models `keccak256(toUtf8Bytes(s))` (the external
ethers functions are modelled as total).  A string hashes directly; a Buffer
hashes its bytes; a non-null object contributes its `proof`, `publicSignals`
and `vk` fields (each only when present and truthy, `publicSignals` and `vk`
JSON-stringified, `proof` string-coerced), falling back to the whole object's
JSON when none contribute, joined with no separator and hashed as UTF-8.
Anything else (null included: `typeof null` is "object" but null is falsy at
line 111) throws "Unsupported proof data format". -/
def parseGenericProof {α : Type} (kraw kutf8 : String → α) (kbuf : List Nat → α) :
    ProofData → Except ClientError (ParsedProof α)
  | .str s => .ok ⟨kraw s, s, none⟩
  | .buf bytes => .ok ⟨kbuf bytes, hexlify bytes, none⟩
  | .obj fields =>
    let comps1 := match lookupField fields "proof" with
      | some v => if v.truthy then [jsToString v] else []
      | none => []
    let comps2 := match lookupField fields "publicSignals" with
      | some v => if v.truthy then [stringify v] else []
      | none => []
    let comps3 := match lookupField fields "vk" with
      | some v => if v.truthy then [stringify v] else []
      | none => []
    let components := comps1 ++ comps2 ++ comps3
    let components := if components.isEmpty then [stringify (JsVal.jsObj fields)]
      else components
    let combined := String.join components
    .ok ⟨kutf8 combined, combined, some fields⟩
  | _ => .error .UnsupportedPayloadFormat

/-- The object returned by `generateProofHash` (lines 154-159). -/
structure ProofHashResult (α : Type) where
  proofHash : α
  publicInputHash : α
  verificationKeyHash : α
  originalData : ProofData

/-- `generateProofHash` (lines 142-160).  The optional `publicInputs` and
`verificationKey` default to JS `null`; the code branches on their
truthiness (`publicInputs ? ... : ...`), JSON-stringifying and hashing a
truthy argument and hashing the fixed sentinel literals otherwise.
`originalData` is `parsed.structured || proofData`. -/
def generateProofHash {α : Type} (kraw kutf8 : String → α) (kbuf : List Nat → α)
    (proofData : ProofData) (publicInputs : JsVal := .jsNull)
    (verificationKey : JsVal := .jsNull) : Except ClientError (ProofHashResult α) := do
  let parsed ← parseGenericProof kraw kutf8 kbuf proofData
  let publicInputHash := if publicInputs.truthy then kutf8 (stringify publicInputs)
    else kutf8 "default_public_input"
  let verificationKeyHash := if verificationKey.truthy then kutf8 (stringify verificationKey)
    else kutf8 "default_verification_key"
  pure { proofHash := parsed.proofHash
         publicInputHash := publicInputHash
         verificationKeyHash := verificationKeyHash
         originalData := match parsed.structured with
           | some fs => ProofData.obj fs
           | none => proofData }

/-- The fee split asserted by test/SnarktorVerifier.test.js:308 —
`totalFee.mul(40).div(100)`; BigNumber division truncates toward zero. -/
def expectedCur (totalFee : Nat) : Nat := totalFee * 40 / 100

/-- `totalFee.mul(5).div(100)` (test line 309). -/
def expectedInc (totalFee : Nat) : Nat := totalFee * 5 / 100

/-- `totalFee.mul(55).div(100)` (test line 310). -/
def expectedAgg (totalFee : Nat) : Nat := totalFee * 55 / 100

theorem foldPath_eq_specWalk {α : Type} (H : α → α → α) :
    ∀ (path : List α) (index : Nat) (x : α),
      foldPath H path index x = specWalk H path index x
  | [], _, _ => rfl
  | _ :: rest, i, _ => by
    simp only [foldPath, specWalk]
    exact foldPath_eq_specWalk H rest (i / 2) _

theorem buildLoopArr_fst {α : Type} (H : α → α → α) :
    ∀ (n : Nat) (ph cur : List α), cur.length = n → (buildLoopArr H ph cur).1 = ph := by
  intro n
  induction n using Nat.strong_induction_on with
  | _ n ih =>
    intro ph cur hlen
    rw [buildLoopArr]
    split
    · exact ih (combineLevel H cur).length (by rw [combineLevel_length]; omega) ph _ rfl
    · rfl

theorem genLoopArr_fst {α : Type} (H : α → α → α) :
    ∀ (n : Nat) (ph cur : List α) (index : Nat) (path : List α),
      cur.length = n → (genLoopArr H ph cur index path).1 = ph := by
  intro n
  induction n using Nat.strong_induction_on with
  | _ n ih =>
    intro ph cur index path hlen
    rw [genLoopArr]
    split
    · exact ih (combineLevel H cur).length (by rw [combineLevel_length]; omega) ph _ _ _ rfl
    · rfl

/-- Context for C1: on a perfect four-leaf tree the roundtrip does hold, for
every combiner and every index — the failure below is specific to levels with
a promoted (unpaired) node. -/
theorem merkle_roundtrip_four_leaves {α : Type} [DecidableEq α] (H : α → α → α)
    (a b c d : α) :
    ∀ i : Nat, i < 4 → ∃ p, generateMerkleProof H [a, b, c, d] i = .ok p ∧
      verifyMerkleProof H p.path p.index p.leaf (H (H a b) (H c d)) = true := by
  intro i hi
  interval_cases i
  · exact ⟨⟨[b, H c d], 0, a⟩,
      by simp [generateMerkleProof, proofLoop, combineLevel, List.get_eq_getElem],
      by simp [verifyMerkleProof, foldPath]⟩
  · exact ⟨⟨[a, H c d], 1, b⟩,
      by simp [generateMerkleProof, proofLoop, combineLevel, List.get_eq_getElem],
      by simp [verifyMerkleProof, foldPath]⟩
  · exact ⟨⟨[d, H a b], 2, c⟩,
      by simp [generateMerkleProof, proofLoop, combineLevel, List.get_eq_getElem],
      by simp [verifyMerkleProof, foldPath]⟩
  · exact ⟨⟨[c, H a b], 3, d⟩,
      by simp [generateMerkleProof, proofLoop, combineLevel, List.get_eq_getElem]; rfl,
      by simp [verifyMerkleProof, foldPath]⟩

/-- C1: the claimed roundtrip `verifyMerkleProof(p.path, p.index, p.leaf,
buildMerkleTree(L)) = true` for `p = generateMerkleProof(L, i)` FAILS on the
code at `L = [a, b, c]`, `i = 2` (here `a = 0`, `b = 1`, `c = 2` with the
injective combiner `pairHash`): the generator records no sibling at level 0
(leaf 2 is promoted unpaired) yet returns the original index 2, so the
verifier — which halves its index once per path element — treats the single
recorded sibling `pairHash 0 1` with the still-even index 2 and computes
`pairHash c (pairHash a b)` instead of the root `pairHash (pairHash a b) c`,
returning false. -/
theorem merkle_roundtrip_fails_on_promoted_leaf :
    buildMerkleTree pairHash [0, 1, 2] = .ok (pairHash (pairHash 0 1) 2) ∧
    generateMerkleProof pairHash [0, 1, 2] 2 =
      .ok { path := [pairHash 0 1], index := 2, leaf := 2 } ∧
    verifyMerkleProof pairHash [pairHash 0 1] 2 2 (pairHash (pairHash 0 1) 2) = false := by
  refine ⟨?_, ?_, ?_⟩
  · simp [buildMerkleTree, mfold, combineLevel, pairHash]
  · simp [generateMerkleProof, proofLoop, combineLevel, List.get_eq_getElem]
  · decide

/-- C2 counterexample: at `totalFee = 1` the three floor shares of the
40/5/55 split are all 0, so they do not sum to `totalFee` — the truncation
remainder is dropped, it does not accrue to the aggregation share. -/
theorem fee_split_drops_remainder_at_one :
    ¬ (expectedCur 1 + expectedInc 1 + expectedAgg 1 = 1) := by decide

/-- C2 (amended): whenever `totalFee` is divisible by 20 — in particular for
the test's 1 ether = 10^18 wei — the three floor shares
`⌊totalFee·40/100⌋ + ⌊totalFee·5/100⌋ + ⌊totalFee·55/100⌋` sum exactly to
`totalFee`. -/
theorem fee_split_exact_on_multiples_of_twenty (f : Nat) (h : 20 ∣ f) :
    expectedCur f + expectedInc f + expectedAgg f = f := by
  obtain ⟨k, rfl⟩ := h
  simp only [expectedCur, expectedInc, expectedAgg]
  omega

/-- Witness for C2's amended theorem at `totalFee = 100`. -/
theorem fee_split_exact_witness :
    expectedCur 100 + expectedInc 100 + expectedAgg 100 = 100 :=
  fee_split_exact_on_multiples_of_twenty 100 ⟨5, rfl⟩

/-- C3: for three leaves the unpaired last element is promoted unchanged,
so the root is `H (H a b) c` — never a duplication or padding of `c`. -/
theorem buildMerkleTree_promotes_unpaired_last {α : Type} (H : α → α → α) (a b c : α) :
    buildMerkleTree H [a, b, c] = .ok (H (H a b) c) := by
  simp [buildMerkleTree, mfold, combineLevel]

/-- C4 counterexample: the claim fails in two ways.  With an unsupported
`proofData` (a number) `generateProofHash` propagates
`UnsupportedPayloadFormat` instead of returning the hashes; and with a GIVEN
but falsy `publicInputs` (the number 0) the code takes the sentinel branch
(`publicInputs ? ... : ...` tests truthiness, not presence), so the returned
`publicInputHash` is the hash of "default_public_input", not the hash of
`JSON.stringify(publicInputs) = "0"` the claim requires (the hash functions
are instantiated with the injective `id`). -/
theorem generateProofHash_truthiness_cex :
    (generateProofHash id id (fun _ => "") (ProofData.num 5) (JsVal.jsArr [JsVal.jsStr "1"])
        JsVal.jsNull) = .error .UnsupportedPayloadFormat ∧
    (generateProofHash id id (fun _ => "") (ProofData.str "0x12") (JsVal.jsNum 0)
        JsVal.jsNull).map (fun r => r.publicInputHash) ≠
      .ok (stringify (JsVal.jsNum 0)) := by
  constructor
  · rfl
  · simp [generateProofHash, parseGenericProof, stringify, JsVal.truthy, Except.map,
      Except.bind, bind, pure, Except.pure]
    decide

/-- C4 (amended): whenever `proofData` parses (otherwise the
`UnsupportedPayloadFormat` error propagates and nothing is returned),
`publicInputHash` is the hash of the UTF-8 bytes of
`JSON.stringify(publicInputs)` when `publicInputs` is given AND truthy, and
the hash of the literal "default_public_input" otherwise (absent, null, or
given but falsy); `verificationKeyHash` is analogous with
"default_verification_key". -/
theorem generateProofHash_sentinel_defaults {α : Type} (kraw kutf8 : String → α)
    (kbuf : List Nat → α) (proofData : ProofData) (publicInputs verificationKey : JsVal) :
    (generateProofHash kraw kutf8 kbuf proofData publicInputs verificationKey).map
        (fun r => r.publicInputHash) =
      (parseGenericProof kraw kutf8 kbuf proofData).map
        (fun _ => if publicInputs.truthy then kutf8 (stringify publicInputs)
          else kutf8 "default_public_input") ∧
    (generateProofHash kraw kutf8 kbuf proofData publicInputs verificationKey).map
        (fun r => r.verificationKeyHash) =
      (parseGenericProof kraw kutf8 kbuf proofData).map
        (fun _ => if verificationKey.truthy then kutf8 (stringify verificationKey)
          else kutf8 "default_verification_key") := by
  cases hp : parseGenericProof kraw kutf8 kbuf proofData <;>
    simp [generateProofHash, hp, Except.map, Except.bind, bind, pure, Except.pure]

/-- C5: `verifyMerkleProof` is a total boolean predicate (the embedding is a
total function, as the JS loop only reads `path[i]` for `i < path.length` and
throws nowhere): it agrees with the spec's §4.2 `verifyInclusionPath` verdict
and returns true exactly when folding the leaf through the path — even index
combines `H computed sibling`, odd index `H sibling computed`, index halved
each step — yields the root; any mismatch, short or long path included, gives
false. -/
theorem verifyMerkleProof_pure_predicate {α : Type} [DecidableEq α] (H : α → α → α)
    (path : List α) (index : Nat) (leaf root : α) :
    verifyMerkleProof H path index leaf root =
      verifyInclusionPathSpec H ⟨path, index, leaf⟩ root ∧
    (verifyMerkleProof H path index leaf root = true ↔
      specWalk H path index leaf = root) := by
  constructor
  · simp [verifyMerkleProof, verifyInclusionPathSpec, foldPath_eq_specWalk]
  · simp [verifyMerkleProof, foldPath_eq_specWalk]

/-- C6: a single-leaf tree's root is the leaf itself, no hashing applied
(for every combiner `H`, the result does not mention `H`). -/
theorem buildMerkleTree_singleton {α : Type} (H : α → α → α) (x : α) :
    buildMerkleTree H [x] = .ok x := by
  simp [buildMerkleTree, mfold]

/-- C7: `buildMerkleTree` fails with `EmptyLeafSet` exactly on the empty
list, and returns a hash on every non-empty list. -/
theorem buildMerkleTree_empty_vs_nonempty {α : Type} (H : α → α → α) :
    buildMerkleTree H ([] : List α) = .error .EmptyLeafSet ∧
    ∀ l : List α, l ≠ [] → (buildMerkleTree H l).isOk = true := by
  refine ⟨rfl, ?_⟩
  intro l hl
  match l with
  | a :: rest => simp [buildMerkleTree, Except.isOk, Except.toBool]

/-- Witness for C7 at the non-empty list `[5]`. -/
theorem buildMerkleTree_nonempty_witness : (buildMerkleTree pairHash [5]).isOk = true :=
  (buildMerkleTree_empty_vs_nonempty pairHash).2 [5] (by simp)

/-- C8: `generateMerkleProof` fails with `IndexOutOfRange` when
`leafIndex ≥ leaves.length`, and otherwise returns the sibling path together
with the original `leafIndex` and `leaves[leafIndex]`. -/
theorem generateMerkleProof_range_check {α : Type} (H : α → α → α) (l : List α) (i : Nat) :
    (l.length ≤ i → generateMerkleProof H l i = .error .IndexOutOfRange) ∧
    ∀ h : i < l.length, ∃ p, generateMerkleProof H l i = .ok p ∧
      p.path = proofLoop H l i ∧ p.index = i ∧ p.leaf = l.get ⟨i, h⟩ := by
  constructor
  · intro hle
    unfold generateMerkleProof
    rw [dif_neg (by omega)]
  · intro h
    exact ⟨⟨proofLoop H l i, i, l.get ⟨i, h⟩⟩,
      by unfold generateMerkleProof; rw [dif_pos h], rfl, rfl, rfl⟩

/-- Witness for C8 at `leaves = [10, 20]`, `leafIndex = 1`. -/
theorem generateMerkleProof_range_check_witness :
    ∃ p, generateMerkleProof pairHash [10, 20] 1 = .ok p ∧
      p.path = proofLoop pairHash [10, 20] 1 ∧ p.index = 1 ∧
      p.leaf = List.get [10, 20] ⟨1, by norm_num⟩ :=
  (generateMerkleProof_range_check pairHash [10, 20] 1).2 (by norm_num)

/-- C9: `parseGenericProof` succeeds exactly on the supported payload shapes
(string, byte buffer, structured object) and fails with
`UnsupportedPayloadFormat` exactly on the rest — null, numbers, booleans,
functions and undefined. -/
theorem parseGenericProof_supported_dichotomy {α : Type} (kraw kutf8 : String → α)
    (kbuf : List Nat → α) (p : ProofData) :
    ((parseGenericProof kraw kutf8 kbuf p).isOk = p.supported) ∧
    (parseGenericProof kraw kutf8 kbuf p = .error .UnsupportedPayloadFormat ↔
      p.supported = false) := by
  cases p <;> simp [parseGenericProof, ProofData.supported, Except.isOk, Except.toBool]

/-- C10: both Merkle operations leave the caller's `proofHashes` array
element-for-element unchanged — each works on the copy made by
`[...proofHashes]` (lines 175 and 210) and never writes the input. -/
theorem merkle_ops_preserve_input {α : Type} (H : α → α → α) (l : List α) (i : Nat) :
    buildMerkleTreeArr H l = l ∧ (generateMerkleProofArr H l i).1 = l := by
  constructor
  · unfold buildMerkleTreeArr
    split
    · rfl
    · exact buildLoopArr_fst H l.length l l rfl
  · unfold generateMerkleProofArr
    split
    · exact genLoopArr_fst H l.length l l i [] rfl
    · rfl

end Snarktor
